import Mathlib

/-!
# FoxPilot content script: accessibility projection and ref-addressing engine

A shallow embedding of the content script's core (ref registry, visibility
oracle, role resolver, accessible-name resolver, tree projector, text
renderer, and the four semantic locators), together with theorems settling
the specification claims about it.

The live DOM is modelled as a tree of element and text nodes.  Each element
carries its tag name (lowercase), its attribute list, the JS properties the
code reads (`value`, `checked`, `disabled`, `required`, `multiple`,
`onclick`, `isContentEditable`), its computed style fields
(`display`/`visibility`/`opacity` as strings) and its bounding-box width and
height.  A `uid` field stands for JS object identity: two distinct live DOM
elements are distinct objects, which the model renders as distinct uids.
CSS selector strings that the code *constructs itself* (such as
`label[for="id"]` or `[role="x"]`) are embedded directly as the
corresponding document-order queries; the caller-supplied `scope` selector
of `snapshot` is interpreted by a small engine supporting `#id` and tag
selectors, standing in for the browser's CSS engine.
-/

/-- Computed style and JS properties of one DOM element (children excluded). -/
structure ElemData where
  uid : Nat
  tag : String
  attrs : List (String × String)
  value : Option String
  checkedProp : Bool
  disabledProp : Bool
  requiredProp : Bool
  hasOnclick : Bool
  contentEditableProp : Bool
  display : String
  visibility : String
  opacity : String
  rectW : Nat
  rectH : Nat
  deriving DecidableEq, Repr

/-- A DOM node: a text node or an element with its children in order. -/
inductive DomNode where
  | text (s : String)
  | elem (d : ElemData) (children : List DomNode)
  deriving Repr

mutual

/-- Decidable equality of DOM nodes. -/
def DomNode.decEq : (a b : DomNode) → Decidable (a = b)
  | .text s, .text t =>
    if h : s = t then isTrue (by rw [h])
    else isFalse (by intro hh; cases hh; exact h rfl)
  | .text _, .elem _ _ => isFalse (by intro h; cases h)
  | .elem _ _, .text _ => isFalse (by intro h; cases h)
  | .elem d cs, .elem e ds =>
    if h1 : d = e then
      match DomNode.decEqList cs ds with
      | isTrue h2 => isTrue (by rw [h1, h2])
      | isFalse h2 => isFalse (by intro hh; cases hh; exact h2 rfl)
    else isFalse (by intro hh; cases hh; exact h1 rfl)

/-- Decidable equality of DOM node lists. -/
def DomNode.decEqList : (as bs : List DomNode) → Decidable (as = bs)
  | [], [] => isTrue rfl
  | [], _ :: _ => isFalse (by intro h; cases h)
  | _ :: _, [] => isFalse (by intro h; cases h)
  | a :: as, b :: bs =>
    match DomNode.decEq a b, DomNode.decEqList as bs with
    | isTrue h1, isTrue h2 => isTrue (by rw [h1, h2])
    | isTrue _, isFalse h2 => isFalse (by intro hh; cases hh; exact h2 rfl)
    | isFalse h1, _ => isFalse (by intro hh; cases hh; exact h1 rfl)

end

instance : DecidableEq DomNode := DomNode.decEq

/-- The numeric value of a decimal digit string (digit chars assumed). -/
def digitsVal (ds : List Char) : Nat :=
  ds.foldl (fun a c => a * 10 + (c.toNat - 48)) 0


namespace FoxPilot

/-- `element.getAttribute(k)`: `some v` if the attribute is present, else `none`. -/
def getAttr (d : ElemData) (k : String) : Option String :=
  (d.attrs.find? (fun p => p.1 = k)).map (fun p => p.2)

/-- `element.hasAttribute(k)`. -/
def hasAttr (d : ElemData) (k : String) : Bool :=
  (getAttr d k).isSome

/-- A JS-truthy attribute value: present and not the empty string. -/
def getAttrTruthy (d : ElemData) (k : String) : Option String :=
  match getAttr d k with
  | some v => if v = "" then none else some v
  | none => none

/-- Substring containment on character lists. -/
def containsSubL : List Char → List Char → Bool
  | [], pat => pat.isEmpty
  | c :: cs, pat => pat.isPrefixOf (c :: cs) || containsSubL cs pat

/-- JS `String.prototype.includes`: substring containment. -/
def strContains (s pat : String) : Bool :=
  containsSubL s.data pat.data

/-- Remove the first occurrence of `pat` from a character list. -/
def removeFirstL : List Char → List Char → List Char
  | [], _ => []
  | c :: cs, pat =>
    if pat.isPrefixOf (c :: cs) then (c :: cs).drop pat.length
    else c :: removeFirstL cs pat

/-- JS `str.replace(pat, '')`: remove the first occurrence of `pat` (if any). -/
def removeFirst (s pat : String) : String :=
  ⟨removeFirstL s.data pat.data⟩

/-- JS `String.prototype.trim` (kernel-reducible). -/
def jsTrim (s : String) : String :=
  ⟨((s.data.dropWhile Char.isWhitespace).reverse.dropWhile
    Char.isWhitespace).reverse⟩

/-- JS `String.prototype.toLowerCase` (kernel-reducible, ASCII-faithful). -/
def jsToLower (s : String) : String :=
  ⟨s.data.map Char.toLower⟩

/-- JS `str.split(' ')`: split on every single space character. -/
def splitOnSpaceAux : List Char → List Char → List (List Char)
  | [], acc => [acc.reverse]
  | c :: cs, acc =>
    if c = ' ' then acc.reverse :: splitOnSpaceAux cs []
    else splitOnSpaceAux cs (c :: acc)

/-- JS `str.split(' ')` on strings. -/
def splitOnSpace (s : String) : List String :=
  (splitOnSpaceAux s.data []).map String.mk

/-- `String.prototype.startsWith` (kernel-reducible). -/
def strStartsWith (s pre : String) : Bool :=
  pre.data.isPrefixOf s.data

/-- Decimal value of a digit-character list, accumulator style. -/
def digitsToNatAux : List Char → Nat → Nat
  | [], acc => acc
  | c :: cs, acc => digitsToNatAux cs (acc * 10 + (c.toNat - 48))

mutual

/-- `element.textContent`: concatenation of all descendant text, in order. -/
def textContent : DomNode → String
  | .text s => s
  | .elem _ cs => textContentList cs

/-- Text content of a list of sibling nodes. -/
def textContentList : List DomNode → String
  | [] => ""
  | c :: cs => textContent c ++ textContentList cs

end

/-- The element children of a node (JS `element.children` skips text nodes). -/
def elemChildren : DomNode → List DomNode
  | .text _ => []
  | .elem _ cs => cs.filter (fun c => match c with | .elem _ _ => true | .text _ => false)

/-- The data record of an element node (text nodes get a dummy). -/
def dataOf : DomNode → ElemData
  | .text _ => ⟨0, "", [], none, false, false, false, false, false, "", "", "", 0, 0⟩
  | .elem d _ => d

mutual

/-- All element nodes of the document in document (pre)order, each with its
ancestor chain (nearest first).  Models `document.querySelectorAll('*')`. -/
def allElemsWithAnc : DomNode → List DomNode → List (DomNode × List DomNode)
  | .text _, _ => []
  | .elem d cs, ancs =>
      (DomNode.elem d cs, ancs) :: allElemsWithAncList cs (DomNode.elem d cs :: ancs)

/-- Document-order element enumeration over a sibling list. -/
def allElemsWithAncList : List DomNode → List DomNode → List (DomNode × List DomNode)
  | [], _ => []
  | c :: cs, ancs => allElemsWithAnc c ancs ++ allElemsWithAncList cs ancs

end

/-- The ref registry: `refToElement` map (insertion order, as a JS `Map`)
plus the monotonic `refCounter`. -/
structure RefState where
  refToElement : List (String × DomNode)
  refCounter : Nat
  deriving DecidableEq, Repr

/-- JS `Map.prototype.set`: rebind in place if the key exists, else append. -/
def mapSet (m : List (String × DomNode)) (k : String) (v : DomNode) :
    List (String × DomNode) :=
  if m.any (fun p => p.1 = k) then
    m.map (fun p => if p.1 = k then (k, v) else p)
  else
    m ++ [(k, v)]

/-- JS `Map.prototype.get` (with the `|| null` of `getElement` folded in). -/
def mapGet (m : List (String × DomNode)) (k : String) : Option DomNode :=
  (m.find? (fun p => p.1 = k)).map (fun p => p.2)

/-- `clearRefs()`: empty the map and reset the counter. -/
def clearRefs (_ : RefState) : RefState := ⟨[], 0⟩

/-- The ref string minted for counter value `k`. -/
def mkRef (k : Nat) : String := "@e" ++ Nat.repr k

/-- `generateRef()`: increment the counter and mint `"@e" + counter`. -/
def generateRef (st : RefState) : String × RefState :=
  (mkRef (st.refCounter + 1), ⟨st.refToElement, st.refCounter + 1⟩)

/-- `generateRef` followed by `refToElement.set(ref, element)` — the
allocation step performed by the projector and by every locator. -/
def allocateRef (st : RefState) (n : DomNode) : String × RefState :=
  let r := generateRef st
  (r.1, ⟨mapSet r.2.refToElement r.1 n, r.2.refCounter⟩)

/-- The `@`-branch of `getElement`: `refToElement.get(selector) || null`. -/
def resolveRef (st : RefState) (ref : String) : Option DomNode :=
  mapGet st.refToElement ref

/-- `isElementVisible`: computed display/visibility/opacity plus a
positive-area bounding box. -/
def isElementVisible (d : ElemData) : Bool :=
  d.display ≠ "none" && d.visibility ≠ "hidden" && d.opacity ≠ "0" &&
    0 < d.rectW && 0 < d.rectH

/-- The `input` type → role table inside `IMPLICIT_ROLES`. -/
def inputTypeRole (ty : String) : Option String :=
  if ty = "button" then some "button"
  else if ty = "checkbox" then some "checkbox"
  else if ty = "email" then some "textbox"
  else if ty = "image" then some "button"
  else if ty = "number" then some "spinbutton"
  else if ty = "radio" then some "radio"
  else if ty = "range" then some "slider"
  else if ty = "reset" then some "button"
  else if ty = "search" then some "searchbox"
  else if ty = "submit" then some "button"
  else if ty = "tel" then some "textbox"
  else if ty = "text" then some "textbox"
  else if ty = "url" then some "textbox"
  else none

/-- The `IMPLICIT_ROLES` table: implicit role from tag and attributes. -/
def implicitRole (d : ElemData) : Option String :=
  if d.tag = "a" then (if hasAttr d "href" then some "link" else none)
  else if d.tag = "article" then some "article"
  else if d.tag = "aside" then some "complementary"
  else if d.tag = "button" then some "button"
  else if d.tag = "datalist" then some "listbox"
  else if d.tag = "details" then some "group"
  else if d.tag = "dialog" then some "dialog"
  else if d.tag = "footer" then some "contentinfo"
  else if d.tag = "form" then some "form"
  else if d.tag = "h1" ∨ d.tag = "h2" ∨ d.tag = "h3" ∨ d.tag = "h4" ∨
      d.tag = "h5" ∨ d.tag = "h6" then some "heading"
  else if d.tag = "header" then some "banner"
  else if d.tag = "hr" then some "separator"
  else if d.tag = "img" then
    (if (getAttrTruthy d "alt").isSome then some "img" else some "presentation")
  else if d.tag = "input" then
    some ((inputTypeRole ((getAttrTruthy d "type").getD "text")).getD "textbox")
  else if d.tag = "li" then some "listitem"
  else if d.tag = "main" then some "main"
  else if d.tag = "menu" then some "menu"
  else if d.tag = "nav" then some "navigation"
  else if d.tag = "ol" then some "list"
  else if d.tag = "option" then some "option"
  else if d.tag = "progress" then some "progressbar"
  else if d.tag = "section" then
    (if hasAttr d "aria-label" || hasAttr d "aria-labelledby" then some "region"
     else none)
  else if d.tag = "select" then
    (if hasAttr d "multiple" then some "listbox" else some "combobox")
  else if d.tag = "summary" then some "button"
  else if d.tag = "table" then some "table"
  else if d.tag = "tbody" then some "rowgroup"
  else if d.tag = "td" then some "cell"
  else if d.tag = "textarea" then some "textbox"
  else if d.tag = "tfoot" then some "rowgroup"
  else if d.tag = "th" then some "columnheader"
  else if d.tag = "thead" then some "rowgroup"
  else if d.tag = "tr" then some "row"
  else if d.tag = "ul" then some "list"
  else none

/-- `getRole`: a truthy explicit `role` attribute wins, else the implicit
role table. -/
def getRole (d : ElemData) : Option String :=
  match getAttrTruthy d "role" with
  | some r => some r
  | none => implicitRole d

/-- The `INTERACTIVE_ROLES` set. -/
def INTERACTIVE_ROLES : List String :=
  ["button", "checkbox", "combobox", "link", "listbox", "menu", "menuitem",
   "menuitemcheckbox", "menuitemradio", "option", "radio", "searchbox",
   "slider", "spinbutton", "switch", "tab", "textbox", "treeitem"]

/-- `isInteractive`: interactive role, click handler, `tabindex="0"`, or
content-editable. -/
def isInteractive (d : ElemData) : Bool :=
  (match getRole d with
   | some r => INTERACTIVE_ROLES.contains r
   | none => false) ||
  d.hasOnclick || getAttr d "tabindex" == some "0" || d.contentEditableProp

/-- `document.getElementById`: first element in document order carrying the
id (`null` for the empty string). -/
def getElementById (doc : DomNode) (i : String) : Option DomNode :=
  if i = "" then none
  else ((allElemsWithAnc doc []).find?
    (fun p => getAttr (dataOf p.1) "id" == some i)).map (fun p => p.1)

/-- `document.querySelector('label[for="<i>"]')`: first label element whose
`for` attribute equals `i`, in document order. -/
def queryLabelFor (doc : DomNode) (i : String) : Option DomNode :=
  ((allElemsWithAnc doc []).find?
    (fun p => (dataOf p.1).tag == "label" && getAttr (dataOf p.1) "for" == some i)).map
    (fun p => p.1)

/-- Name source 1: a truthy `aria-label` attribute, trimmed. -/
def ariaLabelStep (d : ElemData) : Option String :=
  (getAttrTruthy d "aria-label").map jsTrim

/-- Name source 2: space-joined trimmed texts of the elements referenced by
a truthy `aria-labelledby`, provided at least one is non-empty. -/
def labelledByStep (doc : DomNode) (d : ElemData) : Option String :=
  match getAttrTruthy d "aria-labelledby" with
  | none => none
  | some lb =>
    let labels := ((splitOnSpace lb).map (fun i =>
        match getElementById doc i with
        | some n => jsTrim (textContent n)
        | none => "")).filter (fun s => !(s = ""))
    if labels.isEmpty then none else some (String.intercalate " " labels)

/-- Name source 3: if the element has a truthy id and some
`label[for=id]` exists, that label's trimmed text (even if empty). -/
def labelForStep (doc : DomNode) (d : ElemData) : Option String :=
  match getAttrTruthy d "id" with
  | none => none
  | some i =>
    match queryLabelFor doc i with
    | some l => some (jsTrim (textContent l))
    | none => none

/-- `element.closest('label')` over the ancestor chain (self first). -/
def closestLabel (e : DomNode) (ancs : List DomNode) : Option DomNode :=
  (e :: ancs).find? (fun n => (dataOf n).tag == "label")

/-- Name source 4: wrapping label's text with the element's own text
subtracted (first occurrence); the raw label text if that subtraction trims
to nothing. -/
def parentLabelStep (e : DomNode) (ancs : List DomNode) : Option String :=
  match closestLabel e ancs with
  | none => none
  | some l =>
    let labelText := jsTrim (textContent l)
    let elementText := jsTrim (textContent e)
    some (if jsTrim (removeFirst labelText elementText) = "" then labelText
          else jsTrim (removeFirst labelText elementText))

/-- Name source 8: the element's own trimmed text, if non-empty and at most
100 characters. -/
def textContentStep (e : DomNode) : Option String :=
  let tc := jsTrim (textContent e)
  if tc ≠ "" ∧ tc.length ≤ 100 then some tc else none

/-- Name source 9: a truthy `value` property, first 50 characters. -/
def valueStep (d : ElemData) : Option String :=
  match d.value with
  | some v => if v = "" then none else some (v.take 50)
  | none => none

/-- `getAccessibleName`: the nine-step fallback chain of the code, in source
order. -/
def getAccessibleName (doc : DomNode) (e : DomNode) (ancs : List DomNode) : String :=
  (ariaLabelStep (dataOf e) <|>
   labelledByStep doc (dataOf e) <|>
   labelForStep doc (dataOf e) <|>
   parentLabelStep e ancs <|>
   (getAttrTruthy (dataOf e) "title").map jsTrim <|>
   (getAttrTruthy (dataOf e) "placeholder").map jsTrim <|>
   (getAttrTruthy (dataOf e) "alt").map jsTrim <|>
   textContentStep e <|>
   valueStep (dataOf e)).getD ""

/-- A node of the projected accessibility tree.  Optional fields model JS
properties that the code attaches conditionally. -/
inductive SnapshotNode where
  | mk (ref : String) (role : Option String) (name : Option String)
       (level : Option Nat) (checked : Option Bool) (value : Option String)
       (placeholder : Option String) (disabled : Bool) (required : Bool)
       (children : List SnapshotNode)
  deriving Repr

/-- The ref of a snapshot node. -/
def SnapshotNode.ref : SnapshotNode → String
  | .mk r _ _ _ _ _ _ _ _ _ => r

/-- The children of a snapshot node. -/
def SnapshotNode.children : SnapshotNode → List SnapshotNode
  | .mk _ _ _ _ _ _ _ _ _ cs => cs

/-- The result of `buildAccessibilityNode`: JS `null`, a single node, or an
array of promoted children. -/
inductive BuildResult where
  | nil
  | node (n : SnapshotNode)
  | list (ns : List SnapshotNode)
  deriving Repr

/-- Snapshot options (immutable per call). -/
structure SnapOptions where
  interactive : Bool
  compact : Bool
  depth : Option Nat
  scope : Option String
  deriving Repr

/-- The digit of `h1`..`h6` (the code's `tagName.match(/h(\d)/i)?.[1]`). -/
def headingDigit (tag : String) : Option String :=
  if tag = "h1" then some "1" else if tag = "h2" then some "2"
  else if tag = "h3" then some "3" else if tag = "h4" then some "4"
  else if tag = "h5" then some "5" else if tag = "h6" then some "6"
  else none

/-- JS `parseInt` on the strings this code feeds it, as `Option Nat`: the
leading decimal digits after trimming, `none` for NaN (NaN is falsy at
every use site, so it is observationally absence). -/
def jsParseIntNat (s : String) : Option Nat :=
  let t := (jsTrim s).data.takeWhile Char.isDigit
  if t.isEmpty then none else some (digitsToNatAux t 0)

/-- `element.placeholder` as a property: reflects the attribute on `input`
and `textarea`, empty otherwise. -/
def placeholderProp (d : ElemData) : String :=
  if d.tag = "input" ∨ d.tag = "textarea" then (getAttr d "placeholder").getD ""
  else ""

/-- A truthy `value` property. -/
def valueTruthy (d : ElemData) : Bool :=
  match d.value with
  | some v => !(v = "")
  | none => false

/-- The `depth !== null && currentDepth > depth` guard. -/
def depthExceeded (depth : Option Nat) (currentDepth : Nat) : Bool :=
  match depth with
  | some dl => dl < currentDepth
  | none => false

/-- The node-construction block of `buildAccessibilityNode` (the assignments
after `const node = { ref }`). -/
def mkSnapshotNode (ref : String) (d : ElemData) (role : Option String)
    (name : String) (children : List SnapshotNode) : SnapshotNode :=
  let levelSrc := match getAttrTruthy d "aria-level" with
    | some s => some s
    | none => headingDigit d.tag
  .mk ref role
    (if name = "" then none else some name)
    (if role == some "heading" then
      (match levelSrc with | some s => jsParseIntNat s | none => none)
     else none)
    (if role == some "checkbox" || role == some "radio" || role == some "switch"
     then some (d.checkedProp || getAttr d "aria-checked" == some "true")
     else none)
    (if (role == some "textbox" || role == some "searchbox" ||
         role == some "combobox") && valueTruthy d
     then some ((d.value.getD "").take 50) else none)
    (if (role == some "textbox" || role == some "searchbox" ||
         role == some "combobox") && !(placeholderProp d = "")
     then some (placeholderProp d) else none)
    (d.disabledProp || getAttr d "aria-disabled" == some "true")
    (d.requiredProp || getAttr d "aria-required" == some "true")
    children

mutual

/-- `buildAccessibilityNode(element, options, currentDepth)`: the tree
projector, threading the ref registry state and the ancestor chain. -/
def buildAccessibilityNode (doc : DomNode) (e : DomNode) (ancs : List DomNode)
    (opts : SnapOptions) (currentDepth : Nat) (st : RefState) :
    BuildResult × RefState :=
  match e with
  | .text _ => (.nil, st)
  | .elem d cs =>
    if ¬ isElementVisible d then (.nil, st)
    else if depthExceeded opts.depth currentDepth then (.nil, st)
    else
      let role := getRole d
      let name := getAccessibleName doc (.elem d cs) ancs
      let inter := isInteractive d
      let built := buildChildren doc cs (.elem d cs :: ancs) opts
        (currentDepth + 1) st
      let children := built.1
      let st1 := built.2
      if opts.interactive && !inter && role.isNone then
        (if children.isEmpty then .nil else .list children, st1)
      else if opts.compact && role.isNone && name = "" && !inter then
        (if children.isEmpty then .nil else .list children, st1)
      else if role.isSome || !(name = "") || inter || !children.isEmpty then
        let alloc := allocateRef st1 (.elem d cs)
        (.node (mkSnapshotNode alloc.1 d role name children), alloc.2)
      else
        (if children.isEmpty then .nil else .list children, st1)

/-- The `for (const child of element.children)` loop: build each element
child in order, splicing array results into the running list. -/
def buildChildren (doc : DomNode) (cs : List DomNode) (ancs : List DomNode)
    (opts : SnapOptions) (currentDepth : Nat) (st : RefState) :
    List SnapshotNode × RefState :=
  match cs with
  | [] => ([], st)
  | c :: rest =>
    match c with
    | .text _ => buildChildren doc rest ancs opts currentDepth st
    | .elem dd ccs =>
      let r := buildAccessibilityNode doc (.elem dd ccs) ancs opts currentDepth st
      let tail := buildChildren doc rest ancs opts currentDepth r.2
      (match r.1 with
       | .nil => tail.1
       | .node n => n :: tail.1
       | .list ns => ns ++ tail.1, tail.2)

end

mutual

/-- One line per materialized node (the `formatNode` closure of `snapshot`);
returns the lines contributed by this node and its subtree. -/
def formatNode : SnapshotNode → Nat → List String
  | .mk ref role name level checked value ph dis req children, indent =>
    let parts : List String :=
      (match role with | some r => [r] | none => []) ++
      (match name with | some nm => ["\"" ++ nm ++ "\""] | none => [])
    let attrs : List String :=
      ["ref=" ++ ref] ++
      (match level with
       | some l => if l = 0 then [] else ["level=" ++ Nat.repr l]
       | none => []) ++
      (match checked with
       | some c => [if c then "checked" else "unchecked"]
       | none => []) ++
      (if dis then ["disabled"] else []) ++
      (if req then ["required"] else []) ++
      (match value with | some v => ["value=\"" ++ v ++ "\""] | none => []) ++
      (match ph with
       | some p => ["placeholder=\"" ++ p ++ "\""]
       | none => [])
    (String.join (List.replicate indent "  ") ++ "- " ++
      String.intercalate " " parts ++ " [" ++
      String.intercalate "] [" attrs ++ "]") :: formatNodes children (indent + 1)

/-- `formatNode` over a sibling list at one indent level. -/
def formatNodes : List SnapshotNode → Nat → List String
  | [], _ => []
  | n :: ns, indent => formatNode n indent ++ formatNodes ns indent

end

/-- The lines of the rendered snapshot text for a build result. -/
def renderLines : BuildResult → List String
  | .nil => []
  | .node n => formatNode n 0
  | .list ns => formatNodes ns 0

/-- An error code surfaced across the command boundary. -/
inductive ECode where
  | ELEMENT_NOT_FOUND
  | INDEX_OUT_OF_RANGE
  deriving DecidableEq, Repr

/-- A simple caller-supplied selector: `#id` or a tag name; stands in for
the browser's CSS engine on the `scope` parameter of `snapshot`. -/
def matchesSimpleSel (sel : String) (d : ElemData) : Bool :=
  if strStartsWith sel "#" then getAttr d "id" == some (sel.drop 1)
  else d.tag == sel

/-- `document.querySelector(sel)` for simple selectors, with the matched
element's ancestor chain. -/
def querySelectorWithAnc (doc : DomNode) (sel : String) :
    Option (DomNode × List DomNode) :=
  (allElemsWithAnc doc []).find? (fun p => matchesSimpleSel sel (dataOf p.1))

/-- The payload of a successful `snapshot`. -/
structure SnapResult where
  tree : BuildResult
  text : String
  refCount : Nat
  deriving Repr

/-- `snapshot({interactive, compact, depth, scope})`: clear the registry,
resolve the root (document body, or the scope selector), project, render.
The document node stands for `document.body`. -/
def snapshot (doc : DomNode) (opts : SnapOptions) (st : RefState) :
    Except ECode SnapResult × RefState :=
  let st0 := clearRefs st
  let root? : Option (DomNode × List DomNode) :=
    match opts.scope with
    | none => some (doc, [])
    | some sel => querySelectorWithAnc doc sel
  match root? with
  | none => (.error .ELEMENT_NOT_FOUND, st0)
  | some r =>
    let built := buildAccessibilityNode doc r.1 r.2 opts 0 st0
    (.ok ⟨built.1, String.intercalate "\n" (renderLines built.1),
      built.2.refCounter⟩, built.2)

/-- `getElement(selector)`: a ref lookup for `@`-selectors, else a
structural query. -/
def getElement (doc : DomNode) (st : RefState) (selector : String) :
    Option DomNode :=
  if strStartsWith selector "@" then mapGet st.refToElement selector
  else (querySelectorWithAnc doc selector).map (fun p => p.1)

/-- `findElement(selector)`: `getElement` with `null` surfaced as
`ELEMENT_NOT_FOUND`. -/
def findElement (doc : DomNode) (st : RefState) (selector : String) :
    Except ECode DomNode :=
  match getElement doc st selector with
  | none => .error .ELEMENT_NOT_FOUND
  | some e => .ok e

/-- JS object identity of two model elements (uids model identity). -/
def sameNode (a b : DomNode) : Bool :=
  (dataOf a).uid == (dataOf b).uid

/-- CSS `[attr*="q" i]`: attribute present and containing `q`
case-insensitively; an empty `q` matches nothing. -/
def cssAttrContains (d : ElemData) (attr : String) (q : String) : Bool :=
  if q = "" then false
  else match getAttr d attr with
    | some v => strContains (jsToLower v) (jsToLower q)
    | none => false

/-- The shared tail of every locator: zero matches → `ELEMENT_NOT_FOUND`,
index out of range → `INDEX_OUT_OF_RANGE`, else allocate one ref for the
selected match and report the total count. -/
def locatorSelect {α : Type} (node : α → DomNode) (st : RefState)
    (ms : List α) (index : Nat) :
    Except ECode (String × α × Nat) × RefState :=
  if ms.length = 0 then (.error .ELEMENT_NOT_FOUND, st)
  else
    match ms[index]? with
    | none => (.error .INDEX_OUT_OF_RANGE, st)
    | some el =>
      let alloc := allocateRef st (node el)
      (.ok (alloc.1, el, ms.length), alloc.2)

/-- The match list of `findByRole`: visible elements with the explicit role
attribute, then visible elements with that implicit role and no explicit
role attribute; filtered by accessible name when a truthy name is given. -/
def findByRoleMatches (doc : DomNode) (role : String) (name : Option String) :
    List (DomNode × List DomNode) :=
  let explicitEls := (allElemsWithAnc doc []).filter
    (fun p => getAttr (dataOf p.1) "role" == some role &&
      isElementVisible (dataOf p.1))
  let implicitEls := (allElemsWithAnc doc []).filter
    (fun p => getRole (dataOf p.1) == some role &&
      !hasAttr (dataOf p.1) "role" && isElementVisible (dataOf p.1))
  let elements := explicitEls ++ implicitEls
  match name with
  | some nm =>
    if nm = "" then elements
    else elements.filter (fun p =>
      strContains (jsToLower (getAccessibleName doc p.1 p.2)) (jsToLower nm))
  | none => elements

/-- The payload of a successful `findByRole`. -/
structure RoleResult where
  ref : String
  role : Option String
  name : String
  count : Nat
  deriving DecidableEq, Repr

/-- `findByRole({role, name, index})`. -/
def findByRole (doc : DomNode) (st : RefState) (role : String)
    (name : Option String) (index : Nat) : Except ECode RoleResult × RefState :=
  let ms := findByRoleMatches doc role name
  match locatorSelect (fun p => p.1) st ms index with
  | (.error e, st') => (.error e, st')
  | (.ok (ref, el, count), st') =>
    (.ok ⟨ref, getRole (dataOf el.1), getAccessibleName doc el.1 el.2, count⟩,
      st')

/-- The text acceptance test of `findByText`'s tree walker. -/
def textMatches (exact : Bool) (searchText : String) (n : DomNode) : Bool :=
  let nodeText := jsToLower (textContent n)
  if exact then nodeText == searchText else strContains nodeText searchText

mutual

/-- The tree walker of `findByText` below one candidate node: invisible
elements are rejected with their whole subtree; matching visible elements
are accepted and their subtrees still traversed. -/
def walkerAccepted (exact : Bool) (q : String) : DomNode → List DomNode
  | .text _ => []
  | .elem d cs =>
    if ¬ isElementVisible d then []
    else
      (if textMatches exact q (.elem d cs) then [DomNode.elem d cs] else []) ++
        walkerAcceptedList exact q cs

/-- The walker over a sibling list, in document order. -/
def walkerAcceptedList (exact : Bool) (q : String) : List DomNode → List DomNode
  | [] => []
  | c :: cs => walkerAccepted exact q c ++ walkerAcceptedList exact q cs

end

/-- The match list of `findByText`: walker-accepted strict descendants of
the body, minus nodes with a direct element child whose text also
matches. -/
def findByTextMatches (doc : DomNode) (text : String) (exact : Bool) :
    List DomNode :=
  let q := jsToLower text
  let accepted :=
    match doc with
    | .elem _ cs => walkerAcceptedList exact q cs
    | .text _ => []
  accepted.filter (fun n =>
    !(elemChildren n).any (fun child => textMatches exact q child))

/-- The payload of a successful `findByText`. -/
structure TextResult where
  ref : String
  tagName : String
  text : String
  count : Nat
  deriving DecidableEq, Repr

/-- `findByText({text, exact, index})`. -/
def findByText (doc : DomNode) (st : RefState) (text : String) (exact : Bool)
    (index : Nat) : Except ECode TextResult × RefState :=
  let ms := findByTextMatches doc text exact
  match locatorSelect id st ms index with
  | (.error e, st') => (.error e, st')
  | (.ok (ref, el, count), st') =>
    (.ok ⟨ref, (dataOf el).tag, (textContent el).take 100, count⟩, st')

/-- `element.type` as a property (`null` when the element has none). -/
def typeProp (d : ElemData) : Option String :=
  if d.tag = "input" then some ((getAttrTruthy d "type").getD "text")
  else if d.tag = "select" then
    some (if hasAttr d "multiple" then "select-multiple" else "select-one")
  else if d.tag = "textarea" then some "textarea"
  else if d.tag = "button" then some ((getAttrTruthy d "type").getD "submit")
  else none

/-- The match list of `findByLabel`: targets of matching label elements,
then elements matched by `aria-label`, then by `placeholder`; the last two
passes deduplicate against the accumulated list. -/
def findByLabelMatches (doc : DomNode) (label : String) : List DomNode :=
  let pass1 := ((allElemsWithAnc doc []).filter
    (fun p => (dataOf p.1).tag == "label" &&
      strContains (jsToLower (textContent p.1)) (jsToLower label))).foldl
    (fun (acc : List DomNode) p =>
      let target : Option DomNode :=
        match getAttrTruthy (dataOf p.1) "for" with
        | some f => getElementById doc f
        | none =>
          (((allElemsWithAnc p.1 []).drop 1).find? (fun q =>
            (dataOf q.1).tag == "input" || (dataOf q.1).tag == "select" ||
            (dataOf q.1).tag == "textarea")).map (fun q => q.1)
      match target with
      | some t => if isElementVisible (dataOf t) then acc ++ [t] else acc
      | none => acc) []
  let pass2 := (allElemsWithAnc doc []).foldl
    (fun (acc : List DomNode) p =>
      if cssAttrContains (dataOf p.1) "aria-label" label &&
         isElementVisible (dataOf p.1) &&
         !(acc.any (fun m => sameNode m p.1)) then acc ++ [p.1] else acc) pass1
  (allElemsWithAnc doc []).foldl
    (fun (acc : List DomNode) p =>
      if cssAttrContains (dataOf p.1) "placeholder" label &&
         isElementVisible (dataOf p.1) &&
         !(acc.any (fun m => sameNode m p.1)) then acc ++ [p.1] else acc) pass2

/-- The payload of a successful `findByLabel`. -/
structure LabelResult where
  ref : String
  tagName : String
  type : Option String
  count : Nat
  deriving DecidableEq, Repr

/-- `findByLabel({label, index})`. -/
def findByLabel (doc : DomNode) (st : RefState) (label : String)
    (index : Nat) : Except ECode LabelResult × RefState :=
  let ms := findByLabelMatches doc label
  match locatorSelect id st ms index with
  | (.error e, st') => (.error e, st')
  | (.ok (ref, el, count), st') =>
    (.ok ⟨ref, (dataOf el).tag, typeProp (dataOf el), count⟩, st')

/-- The match list of `findByPlaceholder`: visible elements whose
placeholder attribute contains the query case-insensitively. -/
def findByPlaceholderMatches (doc : DomNode) (ph : String) : List DomNode :=
  ((allElemsWithAnc doc []).filter
    (fun p => cssAttrContains (dataOf p.1) "placeholder" ph)).map (fun p => p.1)
    |>.filter (fun n => isElementVisible (dataOf n))

/-- The payload of a successful `findByPlaceholder`. -/
structure PlaceholderResult where
  ref : String
  tagName : String
  type : Option String
  placeholder : String
  count : Nat
  deriving DecidableEq, Repr

/-- `findByPlaceholder({placeholder, index})`. -/
def findByPlaceholder (doc : DomNode) (st : RefState) (ph : String)
    (index : Nat) : Except ECode PlaceholderResult × RefState :=
  let ms := findByPlaceholderMatches doc ph
  match locatorSelect id st ms index with
  | (.error e, st') => (.error e, st')
  | (.ok (ref, el, count), st') =>
    (.ok ⟨ref, (dataOf el).tag, typeProp (dataOf el),
      placeholderProp (dataOf el), count⟩, st')

/-! ## Spec-side definitions (for comparison against the code) -/

/-- Modelled from the spec (§4.3): the accessible-name chain as the spec
words it — nine sources tried in order, and at *every* step an empty or
whitespace-only result is treated as absent and falls through.  Used only
to compare against the code's `getAccessibleName`. -/
def specAccessibleName (doc : DomNode) (e : DomNode) (ancs : List DomNode) :
    String :=
  let cands : List String :=
    [jsTrim ((getAttr (dataOf e) "aria-label").getD ""),
     (match getAttr (dataOf e) "aria-labelledby" with
      | some lb => String.intercalate " "
          ((((splitOnSpace lb).filterMap (getElementById doc)).map
            (fun n => jsTrim (textContent n))).filter (fun s => !(s = "")))
      | none => ""),
     (match getAttrTruthy (dataOf e) "id" with
      | some i =>
        (match queryLabelFor doc i with
         | some l => jsTrim (textContent l)
         | none => "")
      | none => ""),
     (match closestLabel e ancs with
      | some l => jsTrim (removeFirst (jsTrim (textContent l)) (jsTrim (textContent e)))
      | none => ""),
     jsTrim ((getAttr (dataOf e) "title").getD ""),
     jsTrim ((getAttr (dataOf e) "placeholder").getD ""),
     jsTrim ((getAttr (dataOf e) "alt").getD ""),
     (let tc := jsTrim (textContent e)
      if tc.length ≤ 100 then tc else ""),
     (((dataOf e).value.getD "").take 50)]
  ((cands.find? (fun s => !(jsTrim s = ""))).getD "")

/-- Modelled from the spec (§4.7, findByText): acceptance is visibility
plus text-content equality (`exact`) or case-insensitive containment. -/
def specTextAccepts (text : String) (exact : Bool) (n : DomNode) : Bool :=
  isElementVisible (dataOf n) &&
    (if exact then textContent n == text
     else strContains (jsToLower (textContent n)) (jsToLower text))

/-- Modelled from the spec (§4.7, findByText): the match set is the
accepted elements minus every node with an accepted descendant. -/
def specFindByTextMatches (doc : DomNode) (text : String) (exact : Bool) :
    List DomNode :=
  let accepted := ((allElemsWithAnc doc []).map (fun p => p.1)).filter
    (specTextAccepts text exact)
  accepted.filter (fun n =>
    !(((allElemsWithAnc n []).drop 1).map (fun p => p.1)).any
      (specTextAccepts text exact))

mutual

/-- The elements of a subtree whose path from the subtree root consists of
visible elements only (used to characterize `findByText`'s walker). -/
def visElems : DomNode → List DomNode
  | .text _ => []
  | .elem d cs =>
    if ¬ isElementVisible d then []
    else DomNode.elem d cs :: visElemsList cs

/-- `visElems` over a sibling list, in document order. -/
def visElemsList : List DomNode → List DomNode
  | [] => []
  | c :: cs => visElems c ++ visElemsList cs

end

/-- Well-formedness of a registry state: every key was minted from a
counter value not above the current one.  Every state reachable from the
initial (empty) one satisfies this. -/
def WFRefState (st : RefState) : Prop :=
  ∀ p ∈ st.refToElement, ∃ i, i ≤ st.refCounter ∧ p.1 = mkRef i

/-! ## Concrete documents for witnesses and counterexamples -/

/-- A visible element record with the given uid, tag and attributes. -/
def visD (uid : Nat) (tag : String) (attrs : List (String × String)) :
    ElemData :=
  ⟨uid, tag, attrs, none, false, false, false, false, false,
   "block", "visible", "1", 10, 10⟩

/-- A `display: none` element record. -/
def hidD (uid : Nat) (tag : String) (attrs : List (String × String)) :
    ElemData :=
  ⟨uid, tag, attrs, none, false, false, false, false, false,
   "none", "visible", "1", 10, 10⟩

/-- An element with a whitespace-only `aria-label` and a `title`. -/
def wsElem : DomNode := .elem (visD 2 "div" [("aria-label", "  "), ("title", "T")]) []

/-- A document holding `wsElem`. -/
def wsDoc : DomNode := .elem (visD 1 "body" []) [wsElem]

/-- A button with explicit label "X" and text content "Y". -/
def xyElem : DomNode := .elem (visD 3 "button" [("aria-label", "X")]) [.text "Y"]

/-- A document holding `xyElem`. -/
def xyDoc : DomNode := .elem (visD 1 "body" []) [xyElem]

/-- An element whose only name source is a `title` attribute. -/
def tElem : DomNode := .elem (visD 4 "input" [("title", " Tip ")]) []

/-- An input with an id and a title. -/
def labelForElem : DomNode :=
  .elem (visD 5 "input" [("id", "x"), ("title", "T")]) []

/-- A document in which a `label[for]` whose text is whitespace-only
targets `labelForElem`. -/
def labelForDoc : DomNode :=
  .elem (visD 1 "body" [])
    [.elem (visD 6 "label" [("for", "x")]) [.text "   "], labelForElem]

/-- The span holding "World" inside `helloDoc`. -/
def helloSpan : DomNode := .elem (visD 3 "span" []) [.text "World"]

/-- body > div > (text "Hello " + span "World"). -/
def helloDoc : DomNode :=
  .elem (visD 1 "body" []) [.elem (visD 2 "div" []) [.text "Hello ", helloSpan]]

/-- body > div > (text "Say " + hidden span "World"): the div is visible
and contains the text, its only matching descendant is invisible. -/
def hiddenSpanDoc : DomNode :=
  .elem (visD 1 "body" [])
    [.elem (visD 2 "div" []) [.text "Say ", .elem (hidD 3 "span" []) [.text "World"]]]

/-- A text input with a placeholder (and an empty value property). -/
def wrapInput : DomNode :=
  .elem { visD 3 "input" [("placeholder", "Email")] with value := some "" } []

/-- body > div > input: a wrapper with no role, name or interactivity. -/
def wrapDoc : DomNode :=
  .elem (visD 1 "body" []) [.elem (visD 2 "div" []) [wrapInput]]

/-- body > button "Save": exactly one save button. -/
def saveDoc : DomNode :=
  .elem (visD 1 "body" []) [.elem (visD 2 "button" []) [.text "Save"]]

/-- An element that is in no document (a detached node). -/
def detachedNode : DomNode := .elem (visD 99 "div" []) []

/-- A document that does not contain `detachedNode`. -/
def plainDoc : DomNode := .elem (visD 1 "body" []) []

/-! ## Theorems -/

/-! Injectivity of the decimal printer `Nat.repr`, needed for freshness of
generated ref strings. -/

theorem toDigitsCore_shift (b : Nat) : ∀ (f n : Nat) (ds : List Char),
    Nat.toDigitsCore b f n ds = Nat.toDigitsCore b f n [] ++ ds := by
  intro f
  induction f with
  | zero => intro n ds; simp [Nat.toDigitsCore]
  | succ f ih =>
    intro n ds
    simp only [Nat.toDigitsCore]
    by_cases h : n / b = 0
    · simp [h]
    · simp only [h, if_false]
      rw [ih (n / b) (Nat.digitChar (n % b) :: ds), ih (n / b) [Nat.digitChar (n % b)]]
      simp

theorem toDigitsCore_fuel (b : Nat) (hb : 2 ≤ b) : ∀ (f g n : Nat), n < f → n < g →
    Nat.toDigitsCore b f n [] = Nat.toDigitsCore b g n [] := by
  intro f
  induction f with
  | zero => intro g n hf; omega
  | succ f ih =>
    intro g n hf hg
    match g, hg with
    | g + 1, _ =>
      simp only [Nat.toDigitsCore]
      by_cases h : n / b = 0
      · simp [h]
      · simp only [h, if_false]
        rw [toDigitsCore_shift, toDigitsCore_shift b g]
        have hn : 1 ≤ n := by
          rcases Nat.eq_zero_or_pos n with h0 | h1
          · subst h0; simp [Nat.zero_div] at h
          · exact h1
        have hlt : n / b < n := Nat.div_lt_self hn hb
        rw [ih g (n / b) (by omega) (by omega)]

theorem digitsVal_append_singleton (xs : List Char) (c : Char) :
    digitsVal (xs ++ [c]) = digitsVal xs * 10 + (c.toNat - 48) := by
  simp [digitsVal, List.foldl_append]

theorem digitChar_val (m : Nat) (h : m < 10) : (Nat.digitChar m).toNat - 48 = m := by
  interval_cases m <;> rfl

theorem digitsVal_toDigits : ∀ n : Nat, digitsVal (Nat.toDigits 10 n) = n := by
  intro n
  induction n using Nat.strong_induction_on with
  | _ n ih =>
    show digitsVal (Nat.toDigitsCore 10 (n + 1) n []) = n
    simp only [Nat.toDigitsCore]
    by_cases h : n / 10 = 0
    · have hn : n < 10 := by omega
      have : n % 10 = n := Nat.mod_eq_of_lt hn
      simp [h, this, digitsVal, digitChar_val n hn]
    · simp only [h, if_false]
      rw [toDigitsCore_shift]
      have hn : 1 ≤ n := by
        rcases Nat.eq_zero_or_pos n with h0 | h1
        · subst h0; simp at h
        · exact h1
      have hlt : n / 10 < n := Nat.div_lt_self hn (by omega)
      rw [toDigitsCore_fuel 10 (by omega) n (n / 10 + 1) (n / 10) (by omega) (by omega)]
      rw [digitsVal_append_singleton]
      have := ih (n / 10) hlt
      rw [show Nat.toDigitsCore 10 (n / 10 + 1) (n / 10) [] = Nat.toDigits 10 (n / 10) from rfl]
      rw [this, digitChar_val (n % 10) (Nat.mod_lt n (by omega))]
      omega

theorem natRepr_inj {m n : Nat} (h : Nat.repr m = Nat.repr n) : m = n := by
  have hd : Nat.toDigits 10 m = Nat.toDigits 10 n := by
    have h1 : (Nat.toDigits 10 m).asString = (Nat.toDigits 10 n).asString := h
    have h2 : String.mk (Nat.toDigits 10 m) = String.mk (Nat.toDigits 10 n) := by
      simpa [List.asString] using h1
    exact congrArg String.data h2
  have := congrArg digitsVal hd
  rwa [digitsVal_toDigits, digitsVal_toDigits] at this


/-- Ref strings minted from distinct counter values are distinct. -/
theorem mkRef_inj {i j : Nat} (h : mkRef i = mkRef j) : i = j := by
  have hd : ("@e" ++ Nat.repr i).data = ("@e" ++ Nat.repr j).data :=
    congrArg String.data h
  rw [String.data_append, String.data_append] at hd
  have hr : (Nat.repr i).data = (Nat.repr j).data :=
    List.append_cancel_left hd
  exact natRepr_inj (String.ext hr)

theorem find?_map_set (m : List (String × DomNode)) (k : String) (v : DomNode) :
    (m.map (fun p => if p.1 = k then (k, v) else p)).find? (fun p => p.1 = k) =
      if m.any (fun p => p.1 = k) then some (k, v) else none := by
  induction m with
  | nil => simp
  | cons p m ih =>
    simp only [List.map_cons, List.any_cons]
    by_cases hp : p.1 = k
    · rw [if_pos hp, List.find?_cons_of_pos]
      · simp [hp]
      · simp
    · rw [if_neg hp, List.find?_cons_of_neg]
      · rw [ih]
        simp only [decide_eq_false hp, Bool.false_or]
      · simpa using hp

/-- `Map.set` then `Map.get` of the same key yields the set value. -/
theorem mapGet_mapSet_self (m : List (String × DomNode)) (k : String) (v : DomNode) :
    mapGet (mapSet m k v) k = some v := by
  unfold mapSet mapGet
  by_cases h : m.any (fun p => p.1 = k)
  · rw [if_pos h, find?_map_set, if_pos h]
    rfl
  · rw [if_neg h, List.find?_append, List.find?_eq_none.mpr, Option.none_or]
    · simp
    · intro x hx
      simp only [List.any_eq_true, not_exists] at h
      push_neg at h
      simpa using h x hx

/-- `Map.get` of a present key is unaffected by appending entries. -/
theorem mapGet_append_of_some (m l : List (String × DomNode)) (k : String)
    (n : DomNode) (h : mapGet m k = some n) : mapGet (m ++ l) k = some n := by
  unfold mapGet at h ⊢
  rw [List.find?_append]
  cases hf : m.find? (fun p => p.1 = k) with
  | none => rw [hf] at h; simp at h
  | some p => rw [hf] at h; simpa using h

/-- `Map.get` of an absent key is `none`. -/
theorem mapGet_not_mem (m : List (String × DomNode)) (k : String)
    (h : ∀ p ∈ m, p.1 ≠ k) : mapGet m k = none := by
  unfold mapGet
  rw [List.find?_eq_none.mpr]
  · rfl
  · intro x hx
    simpa using h x hx

/-- In a well-formed state the next ref to be minted is not yet a key. -/
theorem wf_fresh (st : RefState) (hwf : WFRefState st) :
    st.refToElement.any (fun p => p.1 = mkRef (st.refCounter + 1)) = false := by
  by_contra hc
  rw [Bool.not_eq_false, List.any_eq_true] at hc
  obtain ⟨p, hp, hpk⟩ := hc
  obtain ⟨i, hi, hkey⟩ := hwf p hp
  rw [hkey] at hpk
  have : i = st.refCounter + 1 := mkRef_inj (by simpa using hpk)
  omega

/-- On a well-formed state, allocation appends one fresh entry. -/
theorem allocateRef_wf_eq (st : RefState) (n : DomNode) (hwf : WFRefState st) :
    allocateRef st n =
      (mkRef (st.refCounter + 1),
       ⟨st.refToElement ++ [(mkRef (st.refCounter + 1), n)], st.refCounter + 1⟩) := by
  unfold allocateRef generateRef mapSet
  simp only [wf_fresh st hwf]
  simp

/-- **C1.** After `clear()` then `allocate(n)`, the returned ref is `"@e"`
followed by the sequence number 1, and `resolve` maps it back to `n`; after
a further `clear()` the same ref resolves to not-found; and every
`allocate` returns the ref minted from the incremented counter, so within
one epoch the numeric suffix strictly increases and (by injectivity of the
minting function) no ref string is ever returned twice. -/
theorem claim1_refRegistry (st : RefState) (n : DomNode) :
    (allocateRef (clearRefs st) n).1 = mkRef 1 ∧
    resolveRef (allocateRef (clearRefs st) n).2
      (allocateRef (clearRefs st) n).1 = some n ∧
    resolveRef (clearRefs (allocateRef (clearRefs st) n).2)
      (allocateRef (clearRefs st) n).1 = none ∧
    (∀ (st₂ : RefState) (m : DomNode),
      (allocateRef st₂ m).1 = mkRef (st₂.refCounter + 1) ∧
      (allocateRef st₂ m).2.refCounter = st₂.refCounter + 1) ∧
    (∀ i j : Nat, i ≠ j → mkRef i ≠ mkRef j) := by
  refine ⟨rfl, ?_, rfl, fun st₂ m => ⟨rfl, rfl⟩, fun i j hne heq => hne (mkRef_inj heq)⟩
  exact mapGet_mapSet_self [] (mkRef 1) n

/-- Witness for C1 at a concrete state and node. -/
theorem claim1_refRegistry_witness :
    resolveRef (allocateRef (clearRefs ⟨[("@e1", DomNode.text "old")], 5⟩)
        (DomNode.text "n")).2
      (allocateRef (clearRefs ⟨[("@e1", DomNode.text "old")], 5⟩)
        (DomNode.text "n")).1 = some (DomNode.text "n") ∧
    mkRef 1 ≠ mkRef 2 := by
  refine ⟨(claim1_refRegistry ⟨[("@e1", DomNode.text "old")], 5⟩
    (DomNode.text "n")).2.1, ?_⟩
  exact (claim1_refRegistry ⟨[], 0⟩ (DomNode.text "n")).2.2.2.2 1 2 (by decide)

/-- **C9.** The snapshot result — projected tree, rendered text, ref count,
and the final registry state with its ref numbering — is a deterministic
function of the live tree and the options alone: two calls with identical
options on an unchanged tree agree regardless of the prior registry
state. -/
theorem claim9_snapshot_deterministic (doc : DomNode) (opts : SnapOptions)
    (st₁ st₂ : RefState) :
    snapshot doc opts st₁ = snapshot doc opts st₂ := by
  rfl

/-- **C10.** A snapshot whose scope selector matches no element fails with
`ELEMENT_NOT_FOUND`, but only after the registry has been fully cleared and
its counter reset: the failure leaves the registry empty, so every ref
allocated before the call no longer resolves. -/
theorem claim10_scope_not_found_clears (doc : DomNode) (opts : SnapOptions)
    (st : RefState) (sel : String) (hscope : opts.scope = some sel)
    (hmiss : querySelectorWithAnc doc sel = none) :
    snapshot doc opts st = (.error .ELEMENT_NOT_FOUND, ⟨[], 0⟩) ∧
    (∀ r : String, resolveRef (snapshot doc opts st).2 r = none) := by
  have h : snapshot doc opts st = (.error .ELEMENT_NOT_FOUND, ⟨[], 0⟩) := by
    unfold snapshot
    rw [hscope]
    simp only [hmiss]
    rfl
  exact ⟨h, fun r => by rw [h]; rfl⟩

/-- Witness for C10: a scoped snapshot against a document with no `#nope`
element fails with `ELEMENT_NOT_FOUND` and leaves an empty registry. -/
theorem claim10_scope_not_found_clears_witness :
    snapshot plainDoc ⟨false, false, none, some "#nope"⟩ ⟨[("@e1", plainDoc)], 3⟩ =
      (.error .ELEMENT_NOT_FOUND, ⟨[], 0⟩) :=
  (claim10_scope_not_found_clears plainDoc ⟨false, false, none, some "#nope"⟩
    ⟨[("@e1", plainDoc)], 3⟩ "#nope" rfl (by rfl)).1


/-- An element whose depth exceeds the limit contributes nothing and leaves
the registry untouched. -/
theorem build_depth_exceeded (doc : DomNode) (e : DomNode) (ancs : List DomNode)
    (opts : SnapOptions) (cd : Nat) (st : RefState) (dl : Nat)
    (hd : opts.depth = some dl) (hlt : dl < cd) :
    buildAccessibilityNode doc e ancs opts cd st = (.nil, st) := by
  cases e with
  | text s => rfl
  | elem d cs =>
    rw [buildAccessibilityNode]
    have hx : depthExceeded opts.depth cd = true := by
      simp [depthExceeded, hd, hlt]
    by_cases hv : isElementVisible d
    · simp [hv, hx]
    · simp [hv]

/-- A whole child list beyond the depth limit contributes nothing. -/
theorem buildChildren_depth_exceeded (doc : DomNode) (cs : List DomNode)
    (ancs : List DomNode) (opts : SnapOptions) (cd : Nat) (dl : Nat)
    (hd : opts.depth = some dl) (hlt : dl < cd) :
    ∀ st : RefState, buildChildren doc cs ancs opts cd st = ([], st) := by
  induction cs with
  | nil => intro st; rfl
  | cons c rest ih =>
    intro st
    cases c with
    | text s =>
      rw [buildChildren]
      exact ih st
    | elem dd ccs =>
      rw [buildChildren]
      rw [build_depth_exceeded doc _ ancs opts cd st dl hd hlt]
      simp only
      rw [ih st]

/-- **C2.** The projector prunes on visibility and depth: an invisible
element maps to null with the registry untouched (so none of its
descendants is ever materialized or assigned a ref); whenever a depth limit
is set, any element deeper than the limit maps to null; and with
`depth = 0` the projection is at most a single root node with no children —
no grandchild node can ever appear. -/
theorem claim2_projector_pruning (doc : DomNode) (d : ElemData)
    (cs : List DomNode) (e : DomNode) (ancs : List DomNode)
    (opts : SnapOptions) (cd dl : Nat) (st : RefState) :
    (isElementVisible d = false →
      buildAccessibilityNode doc (.elem d cs) ancs opts cd st = (.nil, st)) ∧
    (opts.depth = some dl → dl < cd →
      buildAccessibilityNode doc e ancs opts cd st = (.nil, st)) ∧
    (opts.depth = some 0 →
      (buildAccessibilityNode doc e ancs opts 0 st).1 = .nil ∨
      ∃ n, (buildAccessibilityNode doc e ancs opts 0 st).1 = .node n ∧
        SnapshotNode.children n = []) := by
  refine ⟨?_, fun hd hlt => build_depth_exceeded doc e ancs opts cd st dl hd hlt, ?_⟩
  · intro hv
    rw [buildAccessibilityNode]
    simp [hv]
  · intro hd
    cases e with
    | text s => left; rfl
    | elem dd ccs =>
      rw [buildAccessibilityNode]
      by_cases hv : isElementVisible dd
      · have hx : depthExceeded opts.depth 0 = false := by
          simp [depthExceeded, hd]
        rw [buildChildren_depth_exceeded doc ccs _ opts 1 0 hd (by omega)]
        simp only [hv, hx, Bool.not_true, if_false, if_true, List.isEmpty_nil]
        split_ifs <;> first
          | (left; rfl)
          | (right; exact ⟨_, rfl, rfl⟩)
      · simp [hv]

/-- Witness for C2 at concrete inputs: a hidden element projects to null
with the registry unchanged, and a depth-0 snapshot of a depth-3 tree
produces a root node without children. -/
theorem claim2_projector_pruning_witness :
    buildAccessibilityNode helloDoc (.elem (hidD 3 "span" []) [.text "World"])
      [] ⟨false, false, none, none⟩ 0 ⟨[], 0⟩ = (.nil, ⟨[], 0⟩) ∧
    ((buildAccessibilityNode helloDoc helloDoc [] ⟨false, false, some 0, none⟩
        0 ⟨[], 0⟩).1 = .nil ∨
      ∃ n, (buildAccessibilityNode helloDoc helloDoc []
          ⟨false, false, some 0, none⟩ 0 ⟨[], 0⟩).1 = .node n ∧
        SnapshotNode.children n = []) := by
  constructor
  · exact (claim2_projector_pruning helloDoc (hidD 3 "span" []) [.text "World"]
      (.text "") [] ⟨false, false, none, none⟩ 0 0 ⟨[], 0⟩).1 rfl
  · exact (claim2_projector_pruning helloDoc (hidD 3 "span" []) []
      helloDoc [] ⟨false, false, some 0, none⟩ 0 0 ⟨[], 0⟩).2.2 rfl


/-- **C6.** In compact mode, a visible, depth-admissible element with null
role, empty accessible name and no interactivity is elided: the projector
returns exactly the collected children list (null when empty), allocating
no ref for the element itself; concretely, a compact-mode snapshot of a
wrapper div holding one interactive input returns the input promoted to the
wrapper's position, with no node for the wrapper. -/
theorem claim6_compact_elision (doc : DomNode) (d : ElemData)
    (cs ancs : List DomNode) (opts : SnapOptions) (cd : Nat) (st : RefState)
    (hvis : isElementVisible d = true)
    (hdepth : depthExceeded opts.depth cd = false)
    (hcompact : opts.compact = true)
    (hrole : getRole d = none)
    (hname : getAccessibleName doc (.elem d cs) ancs = "")
    (hint : isInteractive d = false) :
    (buildAccessibilityNode doc (.elem d cs) ancs opts cd st =
      ((fun b : List SnapshotNode × RefState =>
        (if b.1.isEmpty then BuildResult.nil else BuildResult.list b.1, b.2))
        (buildChildren doc cs (.elem d cs :: ancs) opts (cd + 1) st))) ∧
    (snapshot wrapDoc ⟨false, true, none, none⟩ ⟨[], 0⟩).1 =
      .ok ⟨.list [.mk "@e1" (some "textbox") (some "Email") none none none
          (some "Email") false false []],
        "- textbox \"Email\" [ref=@e1] [placeholder=\"Email\"]", 1⟩ := by
  constructor
  · rw [buildAccessibilityNode]
    simp only [hvis, hdepth, hcompact, hrole, hname, hint, Bool.not_false,
      Option.isNone_none, Bool.and_true, Bool.true_and, Bool.and_false,
      Bool.false_and, if_false, if_true, Bool.not_true]
    by_cases hi : opts.interactive
    · simp [hi]
    · simp [hi]
  · rfl

/-- Witness for C6: the wrapper div of `wrapDoc` satisfies every elision
hypothesis, and its projection is exactly the promoted child list. -/
theorem claim6_compact_elision_witness :
    buildAccessibilityNode wrapDoc (.elem (visD 2 "div" []) [wrapInput])
      [wrapDoc] ⟨false, true, none, none⟩ 1 ⟨[], 0⟩ =
      ((fun b : List SnapshotNode × RefState =>
        (if b.1.isEmpty then BuildResult.nil else BuildResult.list b.1, b.2))
        (buildChildren wrapDoc [wrapInput]
          (.elem (visD 2 "div" []) [wrapInput] :: [wrapDoc])
          ⟨false, true, none, none⟩ 2 ⟨[], 0⟩)) :=
  (claim6_compact_elision wrapDoc (visD 2 "div" []) [wrapInput] [wrapDoc]
    ⟨false, true, none, none⟩ 1 ⟨[], 0⟩ rfl rfl rfl rfl rfl rfl).1


/-- Counterexample to C8: a ref whose node has been detached from the live
tree does **not** resolve to not-found — `resolve` performs no liveness
check, returns the detached node, and `findElement` raises no
`ELEMENT_NOT_FOUND`. -/
theorem claim8_detached_counterexample :
    (((allElemsWithAnc plainDoc []).map (fun p => p.1)).contains detachedNode) = false ∧
    resolveRef ⟨[("@e1", detachedNode)], 1⟩ "@e1" = some detachedNode ∧
    findElement plainDoc ⟨[("@e1", detachedNode)], 1⟩ "@e1" = .ok detachedNode := by
  exact ⟨by decide, rfl, rfl⟩

/-- **C8 (amended).** `resolve` on an unknown ref returns not-found, and
`findElement` surfaces it as `ELEMENT_NOT_FOUND`; but a known ref resolves
to the exact node it was assigned to whether or not that node is still
attached to the live tree — the registry performs no liveness check, so
"not found" arises only from unknown refs, never from detachment. -/
theorem claim8_resolve_amended (doc : DomNode) (st : RefState) (ref : String)
    (n : DomNode) (hunk : ∀ p ∈ st.refToElement, p.1 ≠ ref)
    (hat : strStartsWith ref "@" = true) :
    resolveRef st ref = none ∧
    findElement doc st ref = .error .ELEMENT_NOT_FOUND ∧
    resolveRef (allocateRef st n).2 (allocateRef st n).1 = some n := by
  have h1 : resolveRef st ref = none := mapGet_not_mem _ _ hunk
  refine ⟨h1, ?_, mapGet_mapSet_self _ _ _⟩
  unfold findElement getElement
  rw [hat]
  unfold resolveRef at h1
  simp [h1]

/-- Witness for C8 (amended) at a concrete state: `"@e2"` is unknown and
fails, while a fresh allocation of a node outside the document still
resolves to that node. -/
theorem claim8_resolve_amended_witness :
    resolveRef ⟨[("@e1", detachedNode)], 1⟩ "@e2" = none ∧
    findElement plainDoc ⟨[("@e1", detachedNode)], 1⟩ "@e2" =
      .error .ELEMENT_NOT_FOUND ∧
    resolveRef (allocateRef ⟨[("@e1", detachedNode)], 1⟩ detachedNode).2
      (allocateRef ⟨[("@e1", detachedNode)], 1⟩ detachedNode).1 =
      some detachedNode :=
  claim8_resolve_amended plainDoc ⟨[("@e1", detachedNode)], 1⟩ "@e2"
    detachedNode (by decide) (by decide)

/-- Counterexample to C3: an element with a whitespace-only `aria-label`
and a `title` of "T" gets the empty accessible name from the code, whereas
the spec's chain (whitespace-only results fall through) yields "T". -/
theorem claim3_name_counterexample :
    getAccessibleName wsDoc wsElem [wsDoc] = "" ∧
    specAccessibleName wsDoc wsElem [wsDoc] = "T" := ⟨rfl, rfl⟩

/-- **C3 (amended).** The nine name sources are tried in the code's fixed
order: aria-label; aria-labelledby concatenation; external `label[for]`;
wrapping label; title; placeholder; alt; own text of at most 100
characters; value.  A source falls through only when its own presence test
fails: its attribute is missing or the empty string, no referenced element
yields non-empty text (aria-labelledby), no associated or wrapping label
element exists, or the trimmed text content is empty or over 100
characters.  Once a source is present it terminates the chain even when its
value is only whitespace — a whitespace-only aria-label/title/placeholder/
alt, a `label[for]` whose text trims to empty, and a wrapping label all
yield a possibly-empty name instead of falling through.  In particular an
element with explicit label "X" and text "Y" resolves to "X", and with all
nine sources absent the name is empty. -/
theorem claim3_name_priority_amended :
    (∀ (d : ElemData) (k : String), getAttr d k = some "" →
      getAttrTruthy d k = none) ∧
    (∀ (doc e : DomNode) (ancs : List DomNode) (v : String),
      getAttr (dataOf e) "aria-label" = some v → v ≠ "" →
      getAccessibleName doc e ancs = jsTrim v) ∧
    getAccessibleName xyDoc xyElem [xyDoc] = "X" ∧
    (∀ (doc e : DomNode) (ancs : List DomNode) (s : String),
      ariaLabelStep (dataOf e) = none →
      labelledByStep doc (dataOf e) = some s →
      getAccessibleName doc e ancs = s) ∧
    (∀ (doc e : DomNode) (ancs : List DomNode) (i : String) (lEl : DomNode),
      ariaLabelStep (dataOf e) = none →
      labelledByStep doc (dataOf e) = none →
      getAttrTruthy (dataOf e) "id" = some i →
      queryLabelFor doc i = some lEl →
      getAccessibleName doc e ancs = jsTrim (textContent lEl)) ∧
    (∀ (e : DomNode) (ancs : List DomNode) (lEl : DomNode),
      closestLabel e ancs = some lEl →
      (parentLabelStep e ancs).isSome = true) ∧
    (∀ (doc e : DomNode) (ancs : List DomNode) (s : String),
      ariaLabelStep (dataOf e) = none →
      labelledByStep doc (dataOf e) = none →
      labelForStep doc (dataOf e) = none →
      parentLabelStep e ancs = some s →
      getAccessibleName doc e ancs = s) ∧
    (∀ (doc e : DomNode) (ancs : List DomNode) (t : String),
      ariaLabelStep (dataOf e) = none →
      labelledByStep doc (dataOf e) = none →
      labelForStep doc (dataOf e) = none →
      parentLabelStep e ancs = none →
      getAttrTruthy (dataOf e) "title" = some t →
      getAccessibleName doc e ancs = jsTrim t) ∧
    (∀ (doc e : DomNode) (ancs : List DomNode) (p : String),
      ariaLabelStep (dataOf e) = none →
      labelledByStep doc (dataOf e) = none →
      labelForStep doc (dataOf e) = none →
      parentLabelStep e ancs = none →
      getAttrTruthy (dataOf e) "title" = none →
      getAttrTruthy (dataOf e) "placeholder" = some p →
      getAccessibleName doc e ancs = jsTrim p) ∧
    (∀ (doc e : DomNode) (ancs : List DomNode) (a : String),
      ariaLabelStep (dataOf e) = none →
      labelledByStep doc (dataOf e) = none →
      labelForStep doc (dataOf e) = none →
      parentLabelStep e ancs = none →
      getAttrTruthy (dataOf e) "title" = none →
      getAttrTruthy (dataOf e) "placeholder" = none →
      getAttrTruthy (dataOf e) "alt" = some a →
      getAccessibleName doc e ancs = jsTrim a) ∧
    (∀ (doc e : DomNode) (ancs : List DomNode) (s : String),
      ariaLabelStep (dataOf e) = none →
      labelledByStep doc (dataOf e) = none →
      labelForStep doc (dataOf e) = none →
      parentLabelStep e ancs = none →
      getAttrTruthy (dataOf e) "title" = none →
      getAttrTruthy (dataOf e) "placeholder" = none →
      getAttrTruthy (dataOf e) "alt" = none →
      textContentStep e = some s →
      getAccessibleName doc e ancs = s) ∧
    (∀ (doc e : DomNode) (ancs : List DomNode) (s : String),
      ariaLabelStep (dataOf e) = none →
      labelledByStep doc (dataOf e) = none →
      labelForStep doc (dataOf e) = none →
      parentLabelStep e ancs = none →
      getAttrTruthy (dataOf e) "title" = none →
      getAttrTruthy (dataOf e) "placeholder" = none →
      getAttrTruthy (dataOf e) "alt" = none →
      textContentStep e = none →
      valueStep (dataOf e) = some s →
      getAccessibleName doc e ancs = s) ∧
    (∀ (doc e : DomNode) (ancs : List DomNode),
      ariaLabelStep (dataOf e) = none →
      labelledByStep doc (dataOf e) = none →
      labelForStep doc (dataOf e) = none →
      parentLabelStep e ancs = none →
      getAttrTruthy (dataOf e) "title" = none →
      getAttrTruthy (dataOf e) "placeholder" = none →
      getAttrTruthy (dataOf e) "alt" = none →
      textContentStep e = none →
      valueStep (dataOf e) = none →
      getAccessibleName doc e ancs = "") := by
  refine ⟨?_, ?_, rfl, ?_, ?_, ?_, ?_, ?_, ?_, ?_, ?_, ?_, ?_⟩
  · intro d k h
    unfold getAttrTruthy
    rw [h]
    rfl
  · intro doc e ancs v hv hne
    have h1 : ariaLabelStep (dataOf e) = some (jsTrim v) := by
      unfold ariaLabelStep getAttrTruthy
      rw [hv]
      simp [hne]
    unfold getAccessibleName
    rw [h1]
    rfl
  · intro doc e ancs s h1 h2
    unfold getAccessibleName
    rw [h1, h2]
    rfl
  · intro doc e ancs i lEl h1 h2 hid hlab
    have h3 : labelForStep doc (dataOf e) = some (jsTrim (textContent lEl)) := by
      unfold labelForStep
      rw [hid]
      dsimp only
      rw [hlab]
    unfold getAccessibleName
    rw [h1, h2, h3]
    rfl
  · intro e ancs lEl h
    unfold parentLabelStep
    rw [h]
    rfl
  · intro doc e ancs s h1 h2 h3 h4
    unfold getAccessibleName
    rw [h1, h2, h3, h4]
    rfl
  · intro doc e ancs t h1 h2 h3 h4 h5
    unfold getAccessibleName
    rw [h1, h2, h3, h4, h5]
    rfl
  · intro doc e ancs p h1 h2 h3 h4 h5 h6
    unfold getAccessibleName
    rw [h1, h2, h3, h4, h5, h6]
    rfl
  · intro doc e ancs a h1 h2 h3 h4 h5 h6 h7
    unfold getAccessibleName
    rw [h1, h2, h3, h4, h5, h6, h7]
    rfl
  · intro doc e ancs s h1 h2 h3 h4 h5 h6 h7 h8
    unfold getAccessibleName
    rw [h1, h2, h3, h4, h5, h6, h7, h8]
    rfl
  · intro doc e ancs s h1 h2 h3 h4 h5 h6 h7 h8 h9
    unfold getAccessibleName
    rw [h1, h2, h3, h4, h5, h6, h7, h8, h9]
    rfl
  · intro doc e ancs h1 h2 h3 h4 h5 h6 h7 h8 h9
    unfold getAccessibleName
    rw [h1, h2, h3, h4, h5, h6, h7, h8, h9]
    rfl

/-- Witness for C3 (amended): the explicit label "X" of `xyElem` wins over
its text "Y"; `tElem` falls through (sources 1-4 absent) to its trimmed
title; and a whitespace-only `label[for]` text terminates the chain with
the empty name, never reaching the element's title "T". -/
theorem claim3_name_priority_amended_witness :
    getAccessibleName xyDoc xyElem [xyDoc] = "X" ∧
    getAccessibleName plainDoc tElem [plainDoc] = "Tip" ∧
    getAccessibleName labelForDoc labelForElem [labelForDoc] = "" := by
  refine ⟨?_, ?_, ?_⟩
  · exact claim3_name_priority_amended.2.1 xyDoc xyElem [xyDoc] "X" rfl
      (by decide)
  · exact claim3_name_priority_amended.2.2.2.2.2.2.2.1 plainDoc tElem
      [plainDoc] " Tip " rfl rfl rfl rfl rfl
  · exact claim3_name_priority_amended.2.2.2.2.1 labelForDoc labelForElem
      [labelForDoc] "x" (.elem (visD 6 "label" [("for", "x")]) [.text "   "])
      rfl rfl rfl rfl

/-- Locator tail on an empty match list: `ELEMENT_NOT_FOUND`, state kept. -/
theorem locatorSelect_nil {α : Type} (node : α → DomNode) (st : RefState)
    (index : Nat) (ms : List α) (h : ms = []) :
    locatorSelect node st ms index = (.error .ELEMENT_NOT_FOUND, st) := by
  subst h; rfl

/-- Locator tail with the index beyond the (non-empty) match list:
`INDEX_OUT_OF_RANGE`, state kept. -/
theorem locatorSelect_oob {α : Type} (node : α → DomNode) (st : RefState)
    (ms : List α) (index : Nat) (hne : ms ≠ []) (hge : ms.length ≤ index) :
    locatorSelect node st ms index = (.error .INDEX_OUT_OF_RANGE, st) := by
  unfold locatorSelect
  rw [if_neg (by simp [List.length_eq_zero, hne]), List.getElem?_eq_none hge]

/-- Locator tail with an in-range index: one fresh ref is allocated for the
selected match only, and the total match count is reported. -/
theorem locatorSelect_ok {α : Type} (node : α → DomNode) (st : RefState)
    (ms : List α) (index : Nat) (h : index < ms.length) :
    locatorSelect node st ms index =
      (.ok (mkRef (st.refCounter + 1), ms.get ⟨index, h⟩, ms.length),
       ⟨mapSet st.refToElement (mkRef (st.refCounter + 1))
          (node (ms.get ⟨index, h⟩)), st.refCounter + 1⟩) := by
  unfold locatorSelect
  rw [if_neg (by omega), List.getElem?_eq_getElem h]
  rfl

/-- **C5.** Each of the four locators fails with `ELEMENT_NOT_FOUND` on an
empty match list and with `INDEX_OUT_OF_RANGE` when the requested index
exceeds the match count minus one (both leaving the registry untouched);
and on success it allocates exactly one new ref — bound to the selected
match only — and returns the total number of matches as `count`. -/
theorem claim5_locator_contracts (doc : DomNode) (st : RefState)
    (role : String) (nm : Option String) (text label ph : String)
    (exact : Bool) (index : Nat) :
    ((findByRoleMatches doc role nm = [] →
       findByRole doc st role nm index = (.error .ELEMENT_NOT_FOUND, st)) ∧
     (findByRoleMatches doc role nm ≠ [] →
       (findByRoleMatches doc role nm).length ≤ index →
       findByRole doc st role nm index = (.error .INDEX_OUT_OF_RANGE, st)) ∧
     (∀ h : index < (findByRoleMatches doc role nm).length,
       findByRole doc st role nm index =
         (.ok ⟨mkRef (st.refCounter + 1),
            getRole (dataOf ((findByRoleMatches doc role nm).get ⟨index, h⟩).1),
            getAccessibleName doc
              ((findByRoleMatches doc role nm).get ⟨index, h⟩).1
              ((findByRoleMatches doc role nm).get ⟨index, h⟩).2,
            (findByRoleMatches doc role nm).length⟩,
          ⟨mapSet st.refToElement (mkRef (st.refCounter + 1))
             ((findByRoleMatches doc role nm).get ⟨index, h⟩).1,
           st.refCounter + 1⟩))) ∧
    ((findByTextMatches doc text exact = [] →
       findByText doc st text exact index = (.error .ELEMENT_NOT_FOUND, st)) ∧
     (findByTextMatches doc text exact ≠ [] →
       (findByTextMatches doc text exact).length ≤ index →
       findByText doc st text exact index = (.error .INDEX_OUT_OF_RANGE, st)) ∧
     (∀ h : index < (findByTextMatches doc text exact).length,
       findByText doc st text exact index =
         (.ok ⟨mkRef (st.refCounter + 1),
            (dataOf ((findByTextMatches doc text exact).get ⟨index, h⟩)).tag,
            ((textContent ((findByTextMatches doc text exact).get ⟨index, h⟩)).take 100),
            (findByTextMatches doc text exact).length⟩,
          ⟨mapSet st.refToElement (mkRef (st.refCounter + 1))
             ((findByTextMatches doc text exact).get ⟨index, h⟩),
           st.refCounter + 1⟩))) ∧
    ((findByLabelMatches doc label = [] →
       findByLabel doc st label index = (.error .ELEMENT_NOT_FOUND, st)) ∧
     (findByLabelMatches doc label ≠ [] →
       (findByLabelMatches doc label).length ≤ index →
       findByLabel doc st label index = (.error .INDEX_OUT_OF_RANGE, st)) ∧
     (∀ h : index < (findByLabelMatches doc label).length,
       findByLabel doc st label index =
         (.ok ⟨mkRef (st.refCounter + 1),
            (dataOf ((findByLabelMatches doc label).get ⟨index, h⟩)).tag,
            typeProp (dataOf ((findByLabelMatches doc label).get ⟨index, h⟩)),
            (findByLabelMatches doc label).length⟩,
          ⟨mapSet st.refToElement (mkRef (st.refCounter + 1))
             ((findByLabelMatches doc label).get ⟨index, h⟩),
           st.refCounter + 1⟩))) ∧
    ((findByPlaceholderMatches doc ph = [] →
       findByPlaceholder doc st ph index = (.error .ELEMENT_NOT_FOUND, st)) ∧
     (findByPlaceholderMatches doc ph ≠ [] →
       (findByPlaceholderMatches doc ph).length ≤ index →
       findByPlaceholder doc st ph index = (.error .INDEX_OUT_OF_RANGE, st)) ∧
     (∀ h : index < (findByPlaceholderMatches doc ph).length,
       findByPlaceholder doc st ph index =
         (.ok ⟨mkRef (st.refCounter + 1),
            (dataOf ((findByPlaceholderMatches doc ph).get ⟨index, h⟩)).tag,
            typeProp (dataOf ((findByPlaceholderMatches doc ph).get ⟨index, h⟩)),
            placeholderProp (dataOf ((findByPlaceholderMatches doc ph).get ⟨index, h⟩)),
            (findByPlaceholderMatches doc ph).length⟩,
          ⟨mapSet st.refToElement (mkRef (st.refCounter + 1))
             ((findByPlaceholderMatches doc ph).get ⟨index, h⟩),
           st.refCounter + 1⟩))) := by
  refine ⟨⟨?_, ?_, ?_⟩, ⟨?_, ?_, ?_⟩, ⟨?_, ?_, ?_⟩, ⟨?_, ?_, ?_⟩⟩
  · intro h
    simp only [findByRole]
    rw [locatorSelect_nil _ st index _ h]
  · intro hne hge
    simp only [findByRole]
    rw [locatorSelect_oob _ st _ index hne hge]
  · intro h
    simp only [findByRole]
    rw [locatorSelect_ok _ st _ index h]
  · intro h
    simp only [findByText]
    rw [locatorSelect_nil _ st index _ h]
  · intro hne hge
    simp only [findByText]
    rw [locatorSelect_oob _ st _ index hne hge]
  · intro h
    simp only [findByText]
    rw [locatorSelect_ok _ st _ index h]
    rfl
  · intro h
    simp only [findByLabel]
    rw [locatorSelect_nil _ st index _ h]
  · intro hne hge
    simp only [findByLabel]
    rw [locatorSelect_oob _ st _ index hne hge]
  · intro h
    simp only [findByLabel]
    rw [locatorSelect_ok _ st _ index h]
    rfl
  · intro h
    simp only [findByPlaceholder]
    rw [locatorSelect_nil _ st index _ h]
  · intro hne hge
    simp only [findByPlaceholder]
    rw [locatorSelect_oob _ st _ index hne hge]
  · intro h
    simp only [findByPlaceholder]
    rw [locatorSelect_ok _ st _ index h]
    rfl

/-- Witness for C5: against `saveDoc` (one "Save" button), `findByRole`
with index 1 fails with `INDEX_OUT_OF_RANGE`; with index 0 it succeeds; and
a text query matching nothing fails with `ELEMENT_NOT_FOUND`. -/
theorem claim5_locator_contracts_witness :
    findByRole saveDoc ⟨[], 0⟩ "button" (some "Save") 1 =
      (.error .INDEX_OUT_OF_RANGE, ⟨[], 0⟩) ∧
    findByText plainDoc ⟨[], 0⟩ "zzz" false 0 =
      (.error .ELEMENT_NOT_FOUND, ⟨[], 0⟩) := by
  constructor
  · exact (claim5_locator_contracts saveDoc ⟨[], 0⟩ "button" (some "Save")
      "" "" "" false 1).1.2.1 (by decide) (by decide)
  · exact (claim5_locator_contracts plainDoc ⟨[], 0⟩ "button" none
      "zzz" "" "" false 0).2.1.1 (by decide)


/-- A successful locator tail on a well-formed state appends exactly one
entry (its fresh ref bound to the selected node) and bumps the counter. -/
theorem locatorSelect_wf_success {α : Type} (node : α → DomNode)
    (st : RefState) (ms : List α) (index : Nat) (hwf : WFRefState st)
    (r : String × α × Nat) (st₂ : RefState)
    (h : locatorSelect node st ms index = (.ok r, st₂)) :
    st₂.refToElement = st.refToElement ++ [(r.1, node r.2.1)] ∧
    r.1 = mkRef (st.refCounter + 1) ∧
    st₂.refCounter = st.refCounter + 1 := by
  unfold locatorSelect at h
  by_cases h0 : ms.length = 0
  · rw [if_pos h0] at h
    simp at h
  · rw [if_neg h0] at h
    cases hg : ms[index]? with
    | none => rw [hg] at h; simp at h
    | some el =>
      rw [hg] at h
      simp only [Prod.mk.injEq, Except.ok.injEq] at h
      obtain ⟨hr, hst⟩ := h
      rw [allocateRef_wf_eq st (node el) hwf] at hr hst
      subst hst
      subst hr
      exact ⟨rfl, rfl, rfl⟩

/-- **C7.** `snapshot` fully clears the registry and resets the counter at
its start (its behaviour is as if started from the empty state), while no
locator ever clears it: on a well-formed state, every successful locator
call preserves every existing entry unchanged — each previously allocated
ref still resolves to the same node — removes or rebinds nothing, and
appends exactly one new entry, bound to the ref it returns. -/
theorem claim7_registry_lifecycle (doc : DomNode) (opts : SnapOptions)
    (st : RefState) (role : String) (nm : Option String)
    (text label ph : String) (exact : Bool) (index : Nat) :
    (snapshot doc opts st = snapshot doc opts ⟨[], 0⟩) ∧
    (WFRefState st →
      (∀ res st', findByRole doc st role nm index = (.ok res, st') →
        (∀ r n, resolveRef st r = some n → resolveRef st' r = some n) ∧
        st'.refToElement.length = st.refToElement.length + 1 ∧
        ∃ el, st'.refToElement = st.refToElement ++ [(res.ref, el)]) ∧
      (∀ res st', findByText doc st text exact index = (.ok res, st') →
        (∀ r n, resolveRef st r = some n → resolveRef st' r = some n) ∧
        st'.refToElement.length = st.refToElement.length + 1 ∧
        ∃ el, st'.refToElement = st.refToElement ++ [(res.ref, el)]) ∧
      (∀ res st', findByLabel doc st label index = (.ok res, st') →
        (∀ r n, resolveRef st r = some n → resolveRef st' r = some n) ∧
        st'.refToElement.length = st.refToElement.length + 1 ∧
        ∃ el, st'.refToElement = st.refToElement ++ [(res.ref, el)]) ∧
      (∀ res st', findByPlaceholder doc st ph index = (.ok res, st') →
        (∀ r n, resolveRef st r = some n → resolveRef st' r = some n) ∧
        st'.refToElement.length = st.refToElement.length + 1 ∧
        ∃ el, st'.refToElement = st.refToElement ++ [(res.ref, el)])) := by
  refine ⟨rfl, fun hwf => ⟨?_, ?_, ?_, ?_⟩⟩
  · intro res st' h
    simp only [findByRole] at h
    rcases hls : locatorSelect (fun p => p.1) st
        (findByRoleMatches doc role nm) index with ⟨r1, st₂⟩
    rw [hls] at h
    cases r1 with
    | error e => simp at h
    | ok r =>
      obtain ⟨rref, rel, rcount⟩ := r
      simp only [Prod.mk.injEq, Except.ok.injEq] at h
      obtain ⟨hres, hst⟩ := h
      obtain ⟨happ, hfresh, hcnt⟩ :=
        locatorSelect_wf_success (fun p : DomNode × List DomNode => p.1) st
          (findByRoleMatches doc role nm) index hwf _ _ hls
      subst hst
      subst hres
      refine ⟨fun r n hr => ?_, by rw [happ]; simp, ⟨rel.1, by rw [happ]⟩⟩
      unfold resolveRef at hr ⊢
      rw [happ]
      exact mapGet_append_of_some _ _ _ _ hr
  · intro res st' h
    simp only [findByText] at h
    rcases hls : locatorSelect id st
        (findByTextMatches doc text exact) index with ⟨r1, st₂⟩
    rw [hls] at h
    cases r1 with
    | error e => simp at h
    | ok r =>
      obtain ⟨rref, rel, rcount⟩ := r
      simp only [Prod.mk.injEq, Except.ok.injEq] at h
      obtain ⟨hres, hst⟩ := h
      obtain ⟨happ, hfresh, hcnt⟩ :=
        locatorSelect_wf_success id st _ index hwf _ _ hls
      subst hst
      subst hres
      refine ⟨fun r n hr => ?_, by rw [happ]; simp, ⟨rel, by rw [happ]; rfl⟩⟩
      unfold resolveRef at hr ⊢
      rw [happ]
      exact mapGet_append_of_some _ _ _ _ hr
  · intro res st' h
    simp only [findByLabel] at h
    rcases hls : locatorSelect id st
        (findByLabelMatches doc label) index with ⟨r1, st₂⟩
    rw [hls] at h
    cases r1 with
    | error e => simp at h
    | ok r =>
      obtain ⟨rref, rel, rcount⟩ := r
      simp only [Prod.mk.injEq, Except.ok.injEq] at h
      obtain ⟨hres, hst⟩ := h
      obtain ⟨happ, hfresh, hcnt⟩ :=
        locatorSelect_wf_success id st _ index hwf _ _ hls
      subst hst
      subst hres
      refine ⟨fun r n hr => ?_, by rw [happ]; simp, ⟨rel, by rw [happ]; rfl⟩⟩
      unfold resolveRef at hr ⊢
      rw [happ]
      exact mapGet_append_of_some _ _ _ _ hr
  · intro res st' h
    simp only [findByPlaceholder] at h
    rcases hls : locatorSelect id st
        (findByPlaceholderMatches doc ph) index with ⟨r1, st₂⟩
    rw [hls] at h
    cases r1 with
    | error e => simp at h
    | ok r =>
      obtain ⟨rref, rel, rcount⟩ := r
      simp only [Prod.mk.injEq, Except.ok.injEq] at h
      obtain ⟨hres, hst⟩ := h
      obtain ⟨happ, hfresh, hcnt⟩ :=
        locatorSelect_wf_success id st _ index hwf _ _ hls
      subst hst
      subst hres
      refine ⟨fun r n hr => ?_, by rw [happ]; simp, ⟨rel, by rw [happ]; rfl⟩⟩
      unfold resolveRef at hr ⊢
      rw [happ]
      exact mapGet_append_of_some _ _ _ _ hr

/-- Witness for C7: on a well-formed one-entry registry, a successful
`findByRole` keeps the old binding resolvable and appends exactly one. -/
theorem claim7_registry_lifecycle_witness :
    resolveRef (findByRole saveDoc ⟨[("@e1", plainDoc)], 1⟩ "button"
        (some "Save") 0).2 "@e1" = some plainDoc ∧
    (findByRole saveDoc ⟨[("@e1", plainDoc)], 1⟩ "button"
        (some "Save") 0).2.refToElement.length = 2 := by
  have hwf : WFRefState ⟨[("@e1", plainDoc)], 1⟩ := by
    intro p hp
    simp only [List.mem_singleton] at hp
    subst hp
    exact ⟨1, Nat.le_refl 1, by decide⟩
  have h := ((claim7_registry_lifecycle saveDoc ⟨false, false, none, none⟩
      ⟨[("@e1", plainDoc)], 1⟩ "button" (some "Save") "" "" "" false 0).2
      hwf).1
  have hrun : findByRole saveDoc ⟨[("@e1", plainDoc)], 1⟩ "button"
      (some "Save") 0 =
      (.ok ⟨"@e2", some "button", "Save", 1⟩,
       ⟨[("@e1", plainDoc), ("@e2", .elem (visD 2 "button" []) [.text "Save"])], 2⟩) := rfl
  obtain ⟨hpres, hlen, hex⟩ := h _ _ hrun
  exact ⟨hpres "@e1" plainDoc rfl, rfl⟩


mutual

/-- The `findByText` walker below one candidate node is exactly the
visible-path element list filtered by the text test. -/
theorem walkerAccepted_eq_filter (exact : Bool) (q : String) :
    ∀ n : DomNode,
      walkerAccepted exact q n = (visElems n).filter (textMatches exact q)
  | .text s => by
    rw [walkerAccepted, visElems]
    rfl
  | .elem d cs => by
    by_cases hv : isElementVisible d
    · have hw : walkerAccepted exact q (.elem d cs) =
          (if textMatches exact q (.elem d cs) then [DomNode.elem d cs]
           else []) ++ walkerAcceptedList exact q cs := by
        rw [walkerAccepted]
        simp [hv]
      have hvi : visElems (.elem d cs) = DomNode.elem d cs :: visElemsList cs := by
        rw [visElems]
        simp [hv]
      rw [hw, hvi, List.filter_cons, walkerAcceptedList_eq_filter exact q cs]
      by_cases hm : textMatches exact q (.elem d cs)
      · simp [hm]
      · simp [hm]
    · have hw : walkerAccepted exact q (.elem d cs) = [] := by
        rw [walkerAccepted]
        simp [hv]
      have hvi : visElems (.elem d cs) = [] := by
        rw [visElems]
        simp [hv]
      rw [hw, hvi]
      rfl

/-- List version of `walkerAccepted_eq_filter`. -/
theorem walkerAcceptedList_eq_filter (exact : Bool) (q : String) :
    ∀ cs : List DomNode,
      walkerAcceptedList exact q cs =
        (visElemsList cs).filter (textMatches exact q)
  | [] => by
    rw [walkerAcceptedList, visElemsList]
    rfl
  | c :: cs => by
    rw [walkerAcceptedList, visElemsList, List.filter_append,
      walkerAccepted_eq_filter exact q c, walkerAcceptedList_eq_filter exact q cs]

end

/-- Counterexample to C4: against a visible div whose only matching
descendant is an invisible span, the spec's match set (visible elements
containing the text, minus those with an accepted descendant) is exactly
the div, but the code drops the div because its direct child's *text*
matches regardless of the child's visibility — so `findByText` errors with
`ELEMENT_NOT_FOUND` instead of returning the div. -/
theorem claim4_findByText_counterexample :
    specFindByTextMatches hiddenSpanDoc "World" false =
      [.elem (visD 2 "div" [])
        [.text "Say ", .elem (hidD 3 "span" []) [.text "World"]]] ∧
    findByTextMatches hiddenSpanDoc "World" false = [] ∧
    findByText hiddenSpanDoc ⟨[], 0⟩ "World" false 0 =
      (.error .ELEMENT_NOT_FOUND, ⟨[], 0⟩) := ⟨rfl, rfl, rfl⟩

set_option maxRecDepth 8192 in
/-- **C4 (amended).** The match set of `findByText` is exactly the strict
descendants of the body reachable through visible elements whose lowercased
text content equals (`exact` — equality is case-insensitive too) or
contains the lowercased query, minus every node that has a direct element
child whose text content also matches, regardless of that child's
visibility; leaf preference among visible matches holds, so against a
container holding "Hello " plus a span "World", `findByText("World")`
returns the span. -/
theorem claim4_findByText_amended (doc : DomNode) (d : ElemData)
    (cs : List DomNode) (text : String) (exact : Bool)
    (hdoc : doc = .elem d cs) :
    findByTextMatches doc text exact =
      ((visElemsList cs).filter (textMatches exact (jsToLower text))).filter
        (fun n => !(elemChildren n).any (textMatches exact (jsToLower text))) ∧
    findByText helloDoc ⟨[], 0⟩ "World" false 0 =
      (.ok ⟨"@e1", "span", "World", 1⟩, ⟨[("@e1", helloSpan)], 1⟩) := by
  constructor
  · subst hdoc
    simp only [findByTextMatches, walkerAcceptedList_eq_filter]
  · rfl

/-- Witness for C4 (amended), instantiated at `helloDoc`. -/
theorem claim4_findByText_amended_witness :
    findByTextMatches helloDoc "World" false =
      ((visElemsList [.elem (visD 2 "div" []) [.text "Hello ", helloSpan]]).filter
        (textMatches false (jsToLower "World"))).filter
        (fun n => !(elemChildren n).any (textMatches false (jsToLower "World"))) :=
  (claim4_findByText_amended helloDoc (visD 1 "body" [])
    [.elem (visD 2 "div" []) [.text "Hello ", helloSpan]] "World" false rfl).1

end FoxPilot
